import Mathlib

/-!
Shallow embedding of the ollama-sentry-demo agent core
(src/agent.ts, src/ecommerce.ts).

Modelling conventions:
* JavaScript numbers are modelled as exact rationals (ℚ); the spec's
  arithmetic statements are about the ideal values, not float rounding.
* JSON values are an inductive `Json`; `JSON.parse` is modelled by the
  executable fueled recursive-descent function `jsonParse` (no
  exponent-literal or \uXXXX support; such inputs simply fail to parse),
  and `JSON.stringify` by `jsonSerialize` (rationals are rendered as
  `num/den` rather than decimal notation; the exact rendering is never
  load-bearing).
* External effects (HTTP fetch, the Ollama model backend, Date.now) are
  oracles carried in environment records; fallible code returns `Except`
  or is paired with an `Option` error.
-/

namespace OllamaSentryDemo

/-- JSON value modelled as an inductive; numbers are exact rationals. -/
inductive Json where
  | null : Json
  | bool (b : Bool) : Json
  | num (q : ℚ) : Json
  | str (s : String) : Json
  | arr (elems : List Json) : Json
  | obj (fields : List (String × Json)) : Json

/-- Rational rendering used by the serializer (`num/den`, or just `num`
when the denominator is 1). -/
def ratToString (q : ℚ) : String :=
  if q.den = 1 then toString q.num else toString q.num ++ "/" ++ toString q.den

/-- Escape one character for a JSON string literal (quotes, backslash,
and common control characters). -/
def escapeChar (c : Char) : String :=
  if c = '"' then "\\\""
  else if c = '\\' then "\\\\"
  else if c = '\n' then "\\n"
  else if c = '\t' then "\\t"
  else if c = '\r' then "\\r"
  else String.singleton c

/-- Quote a string as a JSON string literal. -/
def quoteString (s : String) : String :=
  "\"" ++ String.join (s.data.map escapeChar) ++ "\""

mutual

/-- Model of `JSON.stringify` on the `Json` inductive. -/
def jsonSerialize : Json → String
  | .null => "null"
  | .bool true => "true"
  | .bool false => "false"
  | .num q => ratToString q
  | .str s => quoteString s
  | .arr xs => "[" ++ serializeElems xs ++ "]"
  | .obj fs => "\x7b" ++ serializeFields fs ++ "\x7d"

/-- Serialize array elements, comma separated. -/
def serializeElems : List Json → String
  | [] => ""
  | [x] => jsonSerialize x
  | x :: y :: xs => jsonSerialize x ++ "," ++ serializeElems (y :: xs)

/-- Serialize object members, comma separated. -/
def serializeFields : List (String × Json) → String
  | [] => ""
  | [(k, v)] => quoteString k ++ ":" ++ jsonSerialize v
  | (k, v) :: f :: fs =>
      quoteString k ++ ":" ++ jsonSerialize v ++ "," ++ serializeFields (f :: fs)

end

/-- Skip JSON whitespace. -/
def skipWs : List Char → List Char
  | c :: cs => if c = ' ' ∨ c = '\n' ∨ c = '\t' ∨ c = '\r' then skipWs cs else c :: cs
  | [] => []

/-- Unescape the character following a backslash in a JSON string literal. -/
def unescapeChar (c : Char) : Char :=
  if c = 'n' then '\n' else if c = 't' then '\t' else if c = 'r' then '\r' else c

/-- Parse the body of a JSON string literal (after the opening quote),
returning the string and the rest of the input. -/
def parseStringBody : List Char → Option (String × List Char)
  | [] => none
  | '"' :: cs => some ("", cs)
  | '\\' :: e :: cs =>
      (parseStringBody cs).map fun p =>
        (String.singleton (unescapeChar e) ++ p.1, p.2)
  | c :: cs =>
      (parseStringBody cs).map fun p => (String.singleton c ++ p.1, p.2)

/-- Numeric value of a list of decimal digit characters. -/
def natOfDigits (ds : List Char) : Nat :=
  ds.foldl (fun a c => a * 10 + (c.toNat - 48)) 0

/-- Parse a JSON number (optional minus, integer part, optional fraction).
Exponent notation is not modelled and fails to parse. -/
def parseNumber (cs : List Char) : Option (ℚ × List Char) :=
  let signed : Bool × List Char :=
    match cs with
    | '-' :: r => (true, r)
    | _ => (false, cs)
  let ds := signed.2.takeWhile (fun c => c.isDigit)
  let rest := signed.2.dropWhile (fun c => c.isDigit)
  if ds = [] then none
  else
    let ip : ℚ := (natOfDigits ds : ℚ)
    let withSign : ℚ → ℚ := fun q => if signed.1 then -q else q
    match rest with
    | '.' :: r2 =>
        let fs := r2.takeWhile (fun c => c.isDigit)
        let r3 := r2.dropWhile (fun c => c.isDigit)
        if fs = [] then none
        else some (withSign (ip + (natOfDigits fs : ℚ) / ((10 : ℚ) ^ fs.length)), r3)
    | _ => some (withSign ip, rest)

/-- The opening-brace character. -/
def lbraceChar : Char := Char.ofNat 123

/-- The closing-brace character. -/
def rbraceChar : Char := Char.ofNat 125

mutual

/-- Fueled recursive-descent JSON value parse step. -/
def parseValue : Nat → List Char → Option (Json × List Char)
  | 0, _ => none
  | Nat.succ fuel, cs =>
    match skipWs cs with
    | 'n' :: 'u' :: 'l' :: 'l' :: r => some (.null, r)
    | 't' :: 'r' :: 'u' :: 'e' :: r => some (.bool true, r)
    | 'f' :: 'a' :: 'l' :: 's' :: 'e' :: r => some (.bool false, r)
    | '"' :: r => (parseStringBody r).map fun p => (.str p.1, p.2)
    | '[' :: r =>
        (match skipWs r with
         | ']' :: r2 => some (.arr [], r2)
         | r2 => (parseElems fuel r2).map fun p => (.arr p.1, p.2))
    | c :: r =>
        if c = lbraceChar then
          match skipWs r with
          | c2 :: r2 =>
              if c2 = rbraceChar then some (.obj [], r2)
              else (parseMembers fuel (c2 :: r2)).map fun p => (.obj p.1, p.2)
          | [] => none
        else (parseNumber (c :: r)).map fun p => (.num p.1, p.2)
    | [] => none

/-- Fueled parse of one-or-more array elements up to the closing bracket. -/
def parseElems : Nat → List Char → Option (List Json × List Char)
  | 0, _ => none
  | Nat.succ fuel, cs =>
    match parseValue fuel cs with
    | none => none
    | some (j, r) =>
      match skipWs r with
      | ',' :: r2 => (parseElems fuel (skipWs r2)).map fun p => (j :: p.1, p.2)
      | ']' :: r2 => some ([j], r2)
      | _ => none

/-- Fueled parse of one-or-more object members up to the closing brace. -/
def parseMembers : Nat → List Char → Option (List (String × Json) × List Char)
  | 0, _ => none
  | Nat.succ fuel, cs =>
    match skipWs cs with
    | '"' :: r =>
      match parseStringBody r with
      | none => none
      | some (k, r2) =>
        match skipWs r2 with
        | ':' :: r3 =>
          match parseValue fuel (skipWs r3) with
          | none => none
          | some (v, r4) =>
            match skipWs r4 with
            | ',' :: r5 => (parseMembers fuel r5).map fun p => ((k, v) :: p.1, p.2)
            | c :: r5 => if c = rbraceChar then some ([(k, v)], r5) else none
            | [] => none
        | _ => none
    | _ => none

end

/-- Model of `JSON.parse`: parse a complete JSON document, requiring the
whole input to be consumed; failure is `none` (the thrown SyntaxError). -/
def jsonParse (s : String) : Option Json :=
  match parseValue (2 * s.length + 2) s.data with
  | some (j, rest) => if skipWs rest = [] then some j else none
  | none => none

/-- Look up a field of a JSON object (property access `j.k`); access on a
non-object yields `none` (JS `undefined`). -/
def Json.getField (j : Json) (k : String) : Option Json :=
  match j with
  | .obj fs => fs.lookup k
  | _ => none

/-- Property access expecting a string value. -/
def Json.getStr (j : Json) (k : String) : Option String :=
  match j.getField k with
  | some (.str s) => some s
  | _ => none

/-- Property access expecting a numeric value. -/
def Json.getNum (j : Json) (k : String) : Option ℚ :=
  match j.getField k with
  | some (.num q) => some q
  | _ => none

/-! Ecommerce client (src/ecommerce.ts). -/

/-- Product record (ecommerce.ts `Product`). -/
structure Product where
  id : ℚ
  name : String
  price : ℚ
  description : Option String := none
  category : Option String := none
deriving DecidableEq

/-- Cart item record (ecommerce.ts `CartItem`). -/
structure CartItem where
  productId : ℚ
  quantity : ℚ
  product : Option Product := none
deriving DecidableEq

/-- Order record (ecommerce.ts `Order`). -/
structure Order where
  id : Option String := none
  items : List CartItem
  total : ℚ
  customerEmail : Option String := none
  status : Option String := none
deriving DecidableEq

/-- Outcome of one `fetch` call: the request may throw (transport error),
return a non-OK HTTP response, or succeed with a decoded body. -/
inductive FetchOutcome (α : Type) where
  | transportError : FetchOutcome α
  | httpError (status : Nat) : FetchOutcome α
  | success (data : α) : FetchOutcome α

/-- Typed shape of the order-POST response body after `response.json()`:
an order-shaped record whose fields may each be present or absent.
`FetchOutcome.success none` models an OK response whose body fails to
decode (`response.json()` throws). -/
structure OrderPatch where
  id : Option String := none
  items : Option (List CartItem) := none
  total : Option ℚ := none
  customerEmail : Option String := none
  status : Option String := none

/-- Environment oracle for the ecommerce client: outcomes of the two
backend endpoints and the current clock (`Date.now()`). -/
structure EcommerceEnv where
  productsFetch : FetchOutcome (List Product)
  ordersFetch : Order → FetchOutcome (Option OrderPatch)
  now : Nat

/-- The fixed fallback catalog returned when the product-listing call
fails (ecommerce.ts lines 51-57). -/
def mockProducts : List Product :=
  [ { id := 1, name := "Blue Shirt", price := 29.99, category := some "clothing" },
    { id := 2, name := "Red Pants", price := 49.99, category := some "clothing" },
    { id := 3, name := "Black Shoes", price := 79.99, category := some "footwear" },
    { id := 4, name := "White Hat", price := 19.99, category := some "accessories" },
    { id := 5, name := "Green Jacket", price := 99.99, category := some "clothing" } ]

/-- `EcommerceClient.getProducts`: return the backend data on success; on
any failure (transport error, non-OK status, undecodable body folded into
the thrown/caught path) return the mock catalog. -/
def getProducts (env : EcommerceEnv) : List Product :=
  match env.productsFetch with
  | .success data => data
  | _ => mockProducts

/-- `EcommerceClient.searchProducts`: case-insensitive substring match on
name or category. -/
def searchProducts (env : EcommerceEnv) (query : String) : List Product :=
  let lowerQuery := query.toLower
  (getProducts env).filter fun p =>
    decide (lowerQuery.data <:+: p.name.toLower.data) ||
      (match p.category with
       | some c => decide (lowerQuery.data <:+: c.toLower.data)
       | none => false)

/-- `EcommerceClient.getProductById`: first product with the given id, or
`none` (JS `null`). -/
def getProductById (env : EcommerceEnv) (productId : ℚ) : Option Product :=
  (getProducts env).find? fun p => p.id == productId

/-- Order total: sum of `price × quantity` over items whose productId
resolves against `products`; unresolved items contribute zero
(ecommerce.ts lines 88-95 and 125-132). -/
def orderTotal (products : List Product) (items : List CartItem) : ℚ :=
  items.foldl
    (fun total item =>
      match products.find? (fun p => p.id == item.productId) with
      | some product => total + product.price * item.quantity
      | none => total)
    0

/-- The locally computed order object (ecommerce.ts lines 97-103; also
recomputed identically in the catch path, lines 124-140). -/
def localOrder (env : EcommerceEnv) (items : List CartItem)
    (customerEmail : Option String) : Order :=
  { id := some ("ORDER-" ++ toString env.now)
    items := items
    total := orderTotal (getProducts env) items
    customerEmail := customerEmail
    status := some "pending" }

/-- JS object spread `\x7b...order, ...data\x7d`: fields present in the
patch override the local order's fields. -/
def mergeOrder (o : Order) (p : OrderPatch) : Order :=
  { id := match p.id with | some v => some v | none => o.id
    items := match p.items with | some v => v | none => o.items
    total := match p.total with | some v => v | none => o.total
    customerEmail := match p.customerEmail with | some v => some v | none => o.customerEmail
    status := match p.status with | some v => some v | none => o.status }

/-- `EcommerceClient.createOrder`: compute the local order; POST it; on an
OK response with a decodable body, spread the response data over the local
order; on a non-OK response return the local order; on a thrown error
(transport failure, or body decode failure) recompute and return the local
order. -/
def createOrder (env : EcommerceEnv) (items : List CartItem)
    (customerEmail : Option String) : Order :=
  let order := localOrder env items customerEmail
  match env.ordersFetch order with
  | .success (some data) => mergeOrder order data
  | .success none => localOrder env items customerEmail
  | .httpError _ => order
  | .transportError => localOrder env items customerEmail

/-! Agent (src/agent.ts). -/

/-- Message role (agent.ts `Message.role`). -/
inductive Role where
  | system
  | user
  | assistant
  | tool
deriving DecidableEq

/-- A tool-call arguments payload: the Ollama backend may deliver the
arguments either as a JSON-encoded string or as an already-structured
object (agent.ts line 321 comment). -/
inductive ArgsPayload where
  | raw (s : String)
  | structured (j : Json)

/-- Inner function record of a tool call (agent.ts `ToolCall.function`). -/
structure ToolCallFunction where
  name : String
  arguments : ArgsPayload

/-- A tool-call request (agent.ts `ToolCall`). -/
structure ToolCall where
  id : String
  function : ToolCallFunction

/-- One conversation turn (agent.ts `Message`); an absent `tool_calls`
field is modelled as the empty list (the code only tests emptiness). -/
structure Message where
  role : Role
  content : String
  tool_calls : List ToolCall := []

/-- Relevant part of one Ollama chat response: message content (empty
string when absent, as the code coalesces with `|| ""`), requested tool
calls, and token counters (0 when unreported). -/
structure ModelResponse where
  content : String
  tool_calls : List ToolCall := []
  prompt_eval_count : Nat := 0
  eval_count : Nat := 0

/-- Environment of one agent: the ecommerce backend oracle and the model
backend oracle (`ollama.chat`), which may fail (thrown transport error)
or return a response, as a function of the message history sent. -/
structure AgentEnv where
  ecommerce : EcommerceEnv
  request : List Message → Except String ModelResponse

/-- Error raised during tool execution (caught and re-raised by
`executeTool`). -/
inductive ToolError where
  | unknownTool (name : String)
  | typeError (msg : String)
deriving DecidableEq

/-- The JS error message carried by a tool error. -/
def toolErrorMessage : ToolError → String
  | .unknownTool name => "Unknown tool: " ++ name
  | .typeError msg => msg

/-- Error that escapes a `chat` invocation. -/
inductive AgentError where
  | backendError (msg : String)
  | argumentsParse (payload : ArgsPayload)

/-- Input-token price constant (agent.ts line 78), USD per 1M tokens. -/
def COST_PER_MILLION_INPUT : ℚ := 0.15

/-- Output-token price constant (agent.ts line 79), USD per 1M tokens. -/
def COST_PER_MILLION_OUTPUT : ℚ := 0.60

/-- `EcommerceAgent.calculateCost` (agent.ts lines 71-85): zero when cost
tracking is disabled, otherwise tokens divided by one million times the
per-million rates. -/
def calculateCost (enableCostTracking : Bool)
    (inputTokens outputTokens : Nat) : ℚ :=
  if !enableCostTracking then 0
  else
    let inputCost := ((inputTokens : ℚ) / 1000000) * COST_PER_MILLION_INPUT
    let outputCost := ((outputTokens : ℚ) / 1000000) * COST_PER_MILLION_OUTPUT
    inputCost + outputCost

/-- Optional JSON object field (absent properties are dropped by
`JSON.stringify`). -/
def optField (k : String) : Option Json → List (String × Json)
  | some v => [(k, v)]
  | none => []

/-- Serialize a product to JSON. -/
def productToJson (p : Product) : Json :=
  Json.obj
    ([("id", Json.num p.id), ("name", Json.str p.name), ("price", Json.num p.price)]
      ++ optField "description" (p.description.map Json.str)
      ++ optField "category" (p.category.map Json.str))

/-- Serialize a cart item to JSON. -/
def itemToJson (i : CartItem) : Json :=
  Json.obj
    ([("productId", Json.num i.productId), ("quantity", Json.num i.quantity)]
      ++ optField "product" (i.product.map productToJson))

/-- Serialize an order to JSON. -/
def orderToJson (o : Order) : Json :=
  Json.obj
    (optField "id" (o.id.map Json.str)
      ++ [("items", Json.arr (o.items.map itemToJson)), ("total", Json.num o.total)]
      ++ optField "customerEmail" (o.customerEmail.map Json.str)
      ++ optField "status" (o.status.map Json.str))

/-- Read one parsed items element as a cart item. Elements without
numeric `productId` and `quantity` fields are dropped; in JS such
elements stay in the list but resolve no product and so contribute
nothing to the total, which the claims never distinguish. -/
def itemOfJson (j : Json) : Option CartItem :=
  match j.getNum "productId", j.getNum "quantity" with
  | some pid, some q => some { productId := pid, quantity := q }
  | _, _ => none

/-- Cast of the decoded `items` value to a `CartItem[]` as consumed by
`createOrder`'s `for..of` loop: a JSON array yields its well-formed
items; any non-array value makes the `for..of` iteration throw. -/
def jsonToItems : Json → Except String (List CartItem)
  | .arr xs => .ok (xs.filterMap itemOfJson)
  | _ => .error "items is not iterable"

/-- The four registered tool names (the `name` fields of
`ecommerceTools` in ecommerce.ts). -/
def ecommerceToolNames : List String :=
  ["get_products", "search_products", "get_product_details", "place_order"]

/-- `EcommerceAgent.executeTool` (agent.ts lines 90-177): dispatch a named
tool call with structured arguments to the ecommerce client; any error —
in particular `Unknown tool: ...` for a name outside the registry — is
re-raised to the caller (`Except.error`). -/
def executeTool (env : EcommerceEnv) (toolName : String) (args : Json) :
    Except ToolError Json :=
  match toolName with
  | "get_products" => .ok (.arr ((getProducts env).map productToJson))
  | "search_products" =>
      match args.getStr "query" with
      | some q => .ok (.arr ((searchProducts env q).map productToJson))
      | none => .error (.typeError "query.toLowerCase is not a function")
  | "get_product_details" =>
      .ok (match args.getNum "productId" with
           | some pid =>
              match getProductById env pid with
              | some p => productToJson p
              | none => Json.null
           | none => Json.null)
  | "place_order" =>
      let itemsVal : Json :=
        match args.getField "items" with
        | some (.str s) =>
            -- items arrived as a string: JSON.parse it, degrading to an
            -- empty list when the parse throws (agent.ts lines 120-127)
            (match jsonParse s with
             | some j => j
             | none => .arr [])
        | some j => j
        | none => Json.null
      match jsonToItems itemsVal with
      | .ok items => .ok (orderToJson (createOrder env items (args.getStr "customerEmail")))
      | .error m => .error (.typeError m)
  | other => .error (.unknownTool other)

/-- Normalize a tool-call arguments payload before dispatch (agent.ts
lines 322-324): parse it when it is a string — a parse failure there is
an uncaught throw — and pass it through when already structured. -/
def decodeArguments : ArgsPayload → Option Json
  | .raw s => jsonParse s
  | .structured j => some j

/-- The synthetic failure record pushed as a tool message when a tool
execution fails (agent.ts lines 344-351). -/
def toolFailureJson (toolName : String) (e : ToolError) : Json :=
  Json.obj
    [("error", .str (toolErrorMessage e)),
     ("tool", .str toolName),
     ("status", .str "failed")]

/-- Handle one requested tool call (agent.ts lines 319-352): decode the
arguments (`none` when the decode throws), execute the tool, and build
the tool-role message holding either the serialized result or the
serialized failure record. -/
def dispatchToolCall (env : EcommerceEnv) (tc : ToolCall) : Option Message :=
  (decodeArguments tc.function.arguments).map fun args =>
    match executeTool env tc.function.name args with
    | .ok result => { role := .tool, content := jsonSerialize result }
    | .error e =>
        { role := .tool, content := jsonSerialize (toolFailureJson tc.function.name e) }

/-- Execute the requested tool calls of one iteration in order, appending
one tool message per call; an arguments-decode throw aborts the whole
`chat` invocation with the history accumulated so far. -/
def processToolCalls (env : AgentEnv) (hist : List Message) :
    List ToolCall → List Message × Option AgentError
  | [] => (hist, none)
  | tc :: rest =>
    match dispatchToolCall env.ecommerce tc with
    | none => (hist, some (.argumentsParse tc.function.arguments))
    | some msg => processToolCalls env (hist ++ [msg]) rest

/-- Result of the agent loop: final history, accumulated token counters,
the number of model exchanges performed, and the outcome — `Except.ok`
with the final response text (empty when the iteration limit was reached
with no plain-text reply) or `Except.error` with the escaped error. -/
structure LoopResult where
  history : List Message
  inputTokens : Nat
  outputTokens : Nat
  exchanges : Nat
  outcome : Except AgentError String

/-- The agent loop of `chat` (agent.ts lines 287-368), by fuel: each
round performs one model exchange; a reply with tool calls appends the
assistant message and the tool-result messages and continues; a reply
without tool calls appends the final assistant message and stops; fuel
exhaustion returns the initial empty `finalResponse`. -/
def runLoop (env : AgentEnv) :
    Nat → List Message → Nat → Nat → Nat → LoopResult
  | 0, hist, inT, outT, ex => ⟨hist, inT, outT, ex, .ok ""⟩
  | Nat.succ fuel, hist, inT, outT, ex =>
    match env.request hist with
    | .error e => ⟨hist, inT, outT, ex + 1, .error (.backendError e)⟩
    | .ok resp =>
      if resp.tool_calls.length > 0 then
        let hist1 := hist ++
          [{ role := .assistant, content := resp.content, tool_calls := resp.tool_calls }]
        match processToolCalls env hist1 resp.tool_calls with
        | (hist2, some e) =>
            ⟨hist2, inT + resp.prompt_eval_count, outT + resp.eval_count, ex + 1, .error e⟩
        | (hist2, none) =>
            runLoop env fuel hist2 (inT + resp.prompt_eval_count)
              (outT + resp.eval_count) (ex + 1)
      else
        ⟨hist ++ [{ role := .assistant, content := resp.content }],
          inT + resp.prompt_eval_count, outT + resp.eval_count, ex + 1, .ok resp.content⟩

/-- The loop bound (agent.ts line 293). -/
def maxIterations : Nat := 10

/-- Mutable state of one `EcommerceAgent` instance: the conversation
history, the cumulative cost, and the cost-tracking flag. -/
structure AgentState where
  conversationHistory : List Message
  totalConversationCost : ℚ
  enableCostTracking : Bool

/-- The seed system prompt (agent.ts lines 50-61). -/
def systemPrompt : String :=
  "You are a helpful ecommerce shopping assistant. You can help users:\n" ++
  "- Browse and search for products\n" ++
  "- Get product details\n" ++
  "- Place orders\n\n" ++
  "Available tools:\n" ++
  "- get_products: Get all available products\n" ++
  "- search_products: Search for products by name or category\n" ++
  "- get_product_details: Get details about a specific product by ID\n" ++
  "- place_order: Place an order with items (requires productId and quantity for each item)\n\n" ++
  "Always be helpful, accurate, and confirm order details before placing them."

/-- The seed system message. -/
def systemMessage : Message := { role := .system, content := systemPrompt }

/-- `EcommerceAgent` constructor (agent.ts lines 40-64): conversation
seeded with the system message, cumulative cost zero. -/
def initialState (enableCostTracking : Bool) : AgentState :=
  { conversationHistory := [systemMessage]
    totalConversationCost := 0
    enableCostTracking := enableCostTracking }

/-- `EcommerceAgent.chat` (agent.ts lines 268-424): append the user
message, run the bounded agent loop, and on normal exit accumulate the
turn cost when cost tracking is enabled and tokens were seen; on an
escaped error re-raise it, keeping the partial history (no rollback). -/
def chat (env : AgentEnv) (st : AgentState) (userMessage : String) :
    AgentState × Except AgentError String :=
  let hist0 := st.conversationHistory ++ [{ role := .user, content := userMessage }]
  let r := runLoop env maxIterations hist0 0 0 0
  match r.outcome with
  | .error e => ({ st with conversationHistory := r.history }, .error e)
  | .ok finalResponse =>
      let totalTokens := r.inputTokens + r.outputTokens
      let cost :=
        if st.enableCostTracking ∧ totalTokens > 0 then
          st.totalConversationCost +
            calculateCost st.enableCostTracking r.inputTokens r.outputTokens
        else st.totalConversationCost
      ({ st with conversationHistory := r.history, totalConversationCost := cost },
        .ok finalResponse)

/-- `EcommerceAgent.reset` (agent.ts lines 429-432): keep only the first
message (the system prompt) and zero the cumulative cost. -/
def reset (st : AgentState) : AgentState :=
  { st with
    conversationHistory := st.conversationHistory.take 1
    totalConversationCost := 0 }

/-- `EcommerceAgent.getHistory` (agent.ts lines 444-446). -/
def getHistory (st : AgentState) : List Message :=
  st.conversationHistory

/-- `EcommerceAgent.getTotalCost` (agent.ts lines 437-439). -/
def getTotalCost (st : AgentState) : ℚ :=
  st.totalConversationCost

/-- Agent states reachable through the public interface: construction,
any `chat` invocation (against any environment, whatever its outcome),
and `reset`. -/
inductive Reachable : AgentState → Prop where
  | init (enableCostTracking : Bool) : Reachable (initialState enableCostTracking)
  | chat_step (env : AgentEnv) (st : AgentState) (userMessage : String) :
      Reachable st → Reachable (chat env st userMessage).1
  | reset_step (st : AgentState) : Reachable st → Reachable (reset st)

/-! Concrete environments and inputs used to instantiate the theorems. -/

/-- Ecommerce environment whose two endpoints both fail at transport/HTTP
level, so the catalog degrades to the mock list and orders stay local. -/
def eenvMock : EcommerceEnv :=
  { productsFetch := .transportError
    ordersFetch := fun _ => .httpError 500
    now := 0 }

/-- Ecommerce environment whose order POST succeeds and answers with a
body carrying `total: 5`, exercising the object-spread merge. -/
def eenvOverride : EcommerceEnv :=
  { productsFetch := .transportError
    ordersFetch := fun _ => .success (some { total := some 5 })
    now := 0 }

/-- A well-formed `get_products` tool call with structured arguments. -/
def getProductsCall : ToolCall :=
  { id := "call-1", function := { name := "get_products", arguments := .structured (.obj []) } }

/-- Model response that requests one tool call and carries no text. -/
def respAlwaysTool : ModelResponse :=
  { content := "", tool_calls := [getProductsCall] }

/-- Backend that answers every exchange with a tool-call request and
never with a plain-text reply. -/
def envAlwaysTool : AgentEnv :=
  { ecommerce := eenvMock, request := fun _ => .ok respAlwaysTool }

/-- A tool call whose name is not in the tool registry. -/
def bogusToolCall : ToolCall :=
  { id := "call-2", function := { name := "bogus_tool", arguments := .structured (.obj []) } }

/-- Backend that first requests the unregistered tool and, once a tool
message is present in the history, replies with plain text. -/
def envUnknownTool : AgentEnv :=
  { ecommerce := eenvMock
    request := fun hist =>
      if hist.any (fun m => m.role == Role.tool) then .ok { content := "done" }
      else .ok { content := "", tool_calls := [bogusToolCall] } }

/-- The order items of spec property P6: two of product 1, one of
product 2. -/
def demoItems : List CartItem :=
  [{ productId := 1, quantity := 2 }, { productId := 2, quantity := 1 }]

/-! Structural lemmas about the agent loop. -/

/-- A dispatched tool call always yields a tool-role message. -/
theorem dispatchToolCall_role (e : EcommerceEnv) (tc : ToolCall) (m : Message)
    (h : dispatchToolCall e tc = some m) : m.role = Role.tool := by
  unfold dispatchToolCall at h
  cases hd : decodeArguments tc.function.arguments with
  | none => rw [hd] at h; simp at h
  | some args =>
      rw [hd] at h
      simp only [Option.map_some'] at h
      cases hx : executeTool e tc.function.name args with
      | ok result => rw [hx] at h; injection h with h; rw [← h]
      | error err => rw [hx] at h; injection h with h; rw [← h]

/-- When the arguments payload decodes, the dispatch produces a message. -/
theorem dispatchToolCall_isSome (e : EcommerceEnv) (tc : ToolCall)
    (h : (decodeArguments tc.function.arguments).isSome) :
    (dispatchToolCall e tc).isSome := by
  unfold dispatchToolCall
  cases hd : decodeArguments tc.function.arguments with
  | none => rw [hd] at h; simp at h
  | some args => simp

/-- When every requested call's arguments decode, the calls are executed
left to right and their tool messages are appended in exactly the request
order, with none lost and no error escaping. -/
theorem processToolCalls_ok (env : AgentEnv) :
    ∀ (calls : List ToolCall) (hist : List Message),
      (∀ tc ∈ calls, (decodeArguments tc.function.arguments).isSome) →
      processToolCalls env hist calls =
        (hist ++ calls.filterMap (dispatchToolCall env.ecommerce), none) := by
  intro calls
  induction calls with
  | nil => intro hist _; simp [processToolCalls]
  | cons tc rest ih =>
      intro hist h
      have hsome := dispatchToolCall_isSome env.ecommerce tc (h tc (by simp))
      obtain ⟨msg, hm⟩ := Option.isSome_iff_exists.mp hsome
      have hrest : ∀ tc ∈ rest, (decodeArguments tc.function.arguments).isSome :=
        fun tc' h' => h tc' (by simp [h'])
      simp only [processToolCalls, hm]
      rw [ih (hist ++ [msg]) hrest, List.filterMap_cons, hm]
      simp

/-- Whatever the outcome, processing tool calls only appends tool-role
messages to the history it was given. -/
theorem processToolCalls_history_append (env : AgentEnv) :
    ∀ (calls : List ToolCall) (hist : List Message),
      ∃ suffix, (processToolCalls env hist calls).1 = hist ++ suffix ∧
        ∀ m ∈ suffix, m.role = Role.tool := by
  intro calls
  induction calls with
  | nil => intro hist; exact ⟨[], by simp [processToolCalls]⟩
  | cons tc rest ih =>
      intro hist
      cases hd : dispatchToolCall env.ecommerce tc with
      | none => exact ⟨[], by simp [processToolCalls, hd]⟩
      | some msg =>
          obtain ⟨suffix, hs, hroles⟩ := ih (hist ++ [msg])
          refine ⟨msg :: suffix, ?_, ?_⟩
          · simp only [processToolCalls, hd, hs]
            simp
          · intro m hm
            rcases List.mem_cons.mp hm with h | h
            · rw [h]; exact dispatchToolCall_role env.ecommerce tc msg hd
            · exact hroles m h

/-- One loop round on a reply that carries tool calls whose arguments all
decode: the assistant message and the tool-result messages (in request
order) are appended, and the loop continues on the extended history. -/
theorem runLoop_succ_tools (env : AgentEnv) (fuel : Nat) (hist : List Message)
    (inT outT ex : Nat) (resp : ModelResponse)
    (hreq : env.request hist = .ok resp)
    (hcalls : resp.tool_calls ≠ [])
    (hdec : ∀ tc ∈ resp.tool_calls, (decodeArguments tc.function.arguments).isSome) :
    runLoop env (fuel + 1) hist inT outT ex =
      runLoop env fuel
        (hist ++
          ({ role := .assistant, content := resp.content, tool_calls := resp.tool_calls } ::
            resp.tool_calls.filterMap (dispatchToolCall env.ecommerce)))
        (inT + resp.prompt_eval_count) (outT + resp.eval_count) (ex + 1) := by
  have hlen : resp.tool_calls.length > 0 := List.length_pos.mpr hcalls
  simp only [runLoop, hreq]
  rw [if_pos hlen, processToolCalls_ok env resp.tool_calls _ hdec]
  simp [List.append_assoc]

/-- All messages a dispatch-order filterMap produces are tool-role. -/
theorem mem_filterMap_dispatch_role (e : EcommerceEnv) (calls : List ToolCall)
    (m : Message) (h : m ∈ calls.filterMap (dispatchToolCall e)) :
    m.role = Role.tool := by
  obtain ⟨tc, _, htc⟩ := List.mem_filterMap.mp h
  exact dispatchToolCall_role e tc m htc

/-- Under a backend that always requests tool calls (with decodable
arguments) and never returns plain text, the loop consumes all its fuel,
performs exactly one model exchange per fuel unit, ends with the initial
empty response text and no error, and every assistant message it appends
carries tool calls. -/
theorem runLoop_always_tools (env : AgentEnv)
    (halways : ∀ h, ∃ r, env.request h = .ok r ∧ r.tool_calls ≠ [])
    (hdecode : ∀ h r, env.request h = .ok r →
      ∀ tc ∈ r.tool_calls, (decodeArguments tc.function.arguments).isSome) :
    ∀ (fuel : Nat) (hist : List Message) (inT outT ex : Nat),
      (runLoop env fuel hist inT outT ex).outcome = .ok "" ∧
      (runLoop env fuel hist inT outT ex).exchanges = ex + fuel ∧
      ∃ suffix, (runLoop env fuel hist inT outT ex).history = hist ++ suffix ∧
        ∀ m ∈ suffix, m.role = Role.assistant → m.tool_calls ≠ [] := by
  intro fuel
  induction fuel with
  | zero => intro hist inT outT ex; exact ⟨rfl, rfl, [], by simp [runLoop], by simp⟩
  | succ n ih =>
      intro hist inT outT ex
      obtain ⟨resp, hreq, hcalls⟩ := halways hist
      have hdec := hdecode hist resp hreq
      rw [runLoop_succ_tools env n hist inT outT ex resp hreq hcalls hdec]
      obtain ⟨hout, hex, suffix, hhist, hsuf⟩ :=
        ih (hist ++
          ({ role := .assistant, content := resp.content, tool_calls := resp.tool_calls } ::
            resp.tool_calls.filterMap (dispatchToolCall env.ecommerce)))
          (inT + resp.prompt_eval_count) (outT + resp.eval_count) (ex + 1)
      refine ⟨hout, by rw [hex]; omega, ?_⟩
      refine ⟨({ role := .assistant, content := resp.content, tool_calls := resp.tool_calls } ::
          resp.tool_calls.filterMap (dispatchToolCall env.ecommerce)) ++ suffix, ?_, ?_⟩
      · rw [hhist]; simp [List.append_assoc]
      · intro m hm hrole
        rcases List.mem_append.mp hm with h | h
        · rcases List.mem_cons.mp h with h | h
          · rw [h]; exact hcalls
          · have := mem_filterMap_dispatch_role env.ecommerce resp.tool_calls m h
            rw [this] at hrole; cases hrole
        · exact hsuf m h hrole

/-- Whatever the backend does, one loop run only appends assistant- and
tool-role messages to the history it was given. -/
theorem runLoop_history_append (env : AgentEnv) :
    ∀ (fuel : Nat) (hist : List Message) (inT outT ex : Nat),
      ∃ suffix, (runLoop env fuel hist inT outT ex).history = hist ++ suffix ∧
        ∀ m ∈ suffix, m.role ≠ Role.system := by
  intro fuel
  induction fuel with
  | zero => intro hist inT outT ex; exact ⟨[], by simp [runLoop], by simp⟩
  | succ n ih =>
      intro hist inT outT ex
      cases hreq : env.request hist with
      | error e => exact ⟨[], by simp [runLoop, hreq], by simp⟩
      | ok resp =>
          by_cases hlen : resp.tool_calls.length > 0
          · obtain ⟨sfx, hsfx, hsfxroles⟩ :=
              processToolCalls_history_append env resp.tool_calls
                (hist ++ [{ role := .assistant, content := resp.content,
                            tool_calls := resp.tool_calls }])
            cases hp : processToolCalls env
                (hist ++ [{ role := .assistant, content := resp.content,
                            tool_calls := resp.tool_calls }]) resp.tool_calls with
            | mk hist2 err =>
                rw [hp] at hsfx
                simp only at hsfx
                cases err with
                | some e =>
                    refine ⟨{ role := .assistant, content := resp.content,
                              tool_calls := resp.tool_calls } :: sfx, ?_, ?_⟩
                    · simp only [runLoop, hreq, if_pos hlen, hp, hsfx]
                      simp
                    · intro m hm
                      rcases List.mem_cons.mp hm with h | h
                      · rw [h]; intro hcon; cases hcon
                      · rw [hsfxroles m h]; intro hcon; cases hcon
                | none =>
                    obtain ⟨suffix2, hs2, hroles2⟩ := ih hist2
                      (inT + resp.prompt_eval_count) (outT + resp.eval_count) (ex + 1)
                    refine ⟨({ role := .assistant, content := resp.content,
                               tool_calls := resp.tool_calls } :: sfx) ++ suffix2, ?_, ?_⟩
                    · simp only [runLoop, hreq, if_pos hlen, hp]
                      rw [hs2, hsfx]
                      simp [List.append_assoc]
                    · intro m hm
                      rcases List.mem_append.mp hm with h | h
                      · rcases List.mem_cons.mp h with h | h
                        · rw [h]; intro hcon; cases hcon
                        · rw [hsfxroles m h]; intro hcon; cases hcon
                      · exact hroles2 m h
          · refine ⟨[{ role := .assistant, content := resp.content }], ?_, ?_⟩
            · simp only [runLoop, hreq, if_neg hlen]
            · intro m hm
              rcases List.mem_singleton.mp hm with h
              rw [h]; intro hcon; cases hcon

/-- One `chat` invocation only appends non-system messages to the
conversation, whatever its outcome. -/
theorem chat_history_append (env : AgentEnv) (st : AgentState) (u : String) :
    ∃ suffix, (chat env st u).1.conversationHistory = st.conversationHistory ++ suffix ∧
      ∀ m ∈ suffix, m.role ≠ Role.system := by
  obtain ⟨sfx, hs, hroles⟩ :=
    runLoop_history_append env maxIterations
      (st.conversationHistory ++ [{ role := .user, content := u }]) 0 0 0
  refine ⟨{ role := .user, content := u } :: sfx, ?_, ?_⟩
  · unfold chat
    cases hout : (runLoop env maxIterations
        (st.conversationHistory ++ [{ role := .user, content := u }]) 0 0 0).outcome with
    | error e => simp only [hout, hs]; simp [List.append_assoc]
    | ok s => simp only [hout, hs]; simp [List.append_assoc]
  · intro m hm
    rcases List.mem_cons.mp hm with h | h
    · rw [h]; intro hcon; cases hcon
    · exact hroles m h

/-- In every reachable state the conversation starts with the seed system
message and contains no other system-role message. -/
theorem reachable_system_head (st : AgentState) (h : Reachable st) :
    ∃ rest, st.conversationHistory = systemMessage :: rest ∧
      ∀ m ∈ rest, m.role ≠ Role.system := by
  induction h with
  | init b => exact ⟨[], rfl, by simp⟩
  | chat_step env st' u _ ih =>
      obtain ⟨rest, heq, hrest⟩ := ih
      obtain ⟨suffix, hs, hsuf⟩ := chat_history_append env st' u
      refine ⟨rest ++ suffix, ?_, ?_⟩
      · rw [hs, heq]; simp
      · intro m hm
        rcases List.mem_append.mp hm with h | h
        · exact hrest m h
        · exact hsuf m h
  | reset_step st' _ ih =>
      obtain ⟨rest, heq, _⟩ := ih
      exact ⟨[], by simp [reset, heq], by simp⟩

/-- A filterMap over a list on which the function is everywhere `some`
drops nothing. -/
theorem length_filterMap_of_isSome {α β : Type} (f : α → Option β) :
    ∀ l : List α, (∀ a ∈ l, (f a).isSome) → (l.filterMap f).length = l.length := by
  intro l
  induction l with
  | nil => intro _; rfl
  | cons a rest ih =>
      intro h
      obtain ⟨b, hb⟩ := Option.isSome_iff_exists.mp (h a (by simp))
      rw [List.filterMap_cons, hb]
      simp only [List.length_cons]
      rw [ih (fun a' h' => h a' (by simp [h']))]

/-! Claim theorems. -/

/-- C1: against a model backend that always returns tool-call requests
(with decodable arguments, per the spec's ToolCallRequest shape) and
never a plain-text reply, one `chat` invocation performs exactly the
maximum of 10 model exchanges, terminates, and returns normally (with the
empty last-captured text) instead of raising. -/
theorem chat_always_toolcalls_bounded (env : AgentEnv) (st : AgentState)
    (userMessage : String)
    (halways : ∀ h, ∃ r, env.request h = .ok r ∧ r.tool_calls ≠ [])
    (hdecode : ∀ h r, env.request h = .ok r →
      ∀ tc ∈ r.tool_calls, (decodeArguments tc.function.arguments).isSome) :
    (chat env st userMessage).2 = .ok "" ∧
    (runLoop env maxIterations
        (st.conversationHistory ++ [{ role := .user, content := userMessage }])
        0 0 0).exchanges = 10 := by
  obtain ⟨hout, hex, _⟩ :=
    runLoop_always_tools env halways hdecode maxIterations
      (st.conversationHistory ++ [{ role := .user, content := userMessage }]) 0 0 0
  constructor
  · simp only [chat]
    rw [hout]
  · rw [hex]; rfl

/-- Witness for C1 at a concrete always-tool-calling backend. -/
theorem chat_always_toolcalls_bounded_witness :
    (chat envAlwaysTool (initialState false) "show me products").2 = .ok "" ∧
    (runLoop envAlwaysTool maxIterations
        ((initialState false).conversationHistory ++
          [{ role := .user, content := "show me products" }]) 0 0 0).exchanges = 10 :=
  chat_always_toolcalls_bounded envAlwaysTool (initialState false) "show me products"
    (fun _ => ⟨respAlwaysTool, rfl, by simp [respAlwaysTool]⟩)
    (fun h r hr tc htc => by
      have hr' : r = respAlwaysTool := by
        have := hr.symm.trans (rfl : envAlwaysTool.request h = .ok respAlwaysTool)
        injection this
      subst hr'
      simp only [respAlwaysTool, List.mem_singleton] at htc
      subst htc
      rfl)

/-- C3: the cost estimator returns exactly 0 whenever cost tracking is
disabled, returns `inputTokens/1e6*0.15 + outputTokens/1e6*0.60` when
enabled, and in particular `cost(1200, 300) = 0.00036` when enabled. -/
theorem calculateCost_gate_and_formula :
    ∀ inputTokens outputTokens : Nat,
      calculateCost false inputTokens outputTokens = 0 ∧
      calculateCost true inputTokens outputTokens =
        (inputTokens : ℚ) / 1000000 * 0.15 + (outputTokens : ℚ) / 1000000 * 0.60 ∧
      calculateCost true 1200 300 = 0.00036 := by
  intro inputTokens outputTokens
  refine ⟨rfl, rfl, ?_⟩
  norm_num [calculateCost, COST_PER_MILLION_INPUT, COST_PER_MILLION_OUTPUT]

/-- C4: the tool calls requested in one model reply are dispatched one at
a time in exactly the order they appear; the resulting tool messages are
appended in that same order (none dropped), all before the next model
exchange is issued on the extended history. -/
theorem tool_results_in_request_order (env : AgentEnv) (hist : List Message)
    (fuel inT outT ex : Nat) (resp : ModelResponse)
    (hreq : env.request hist = .ok resp)
    (hcalls : resp.tool_calls ≠ [])
    (hdec : ∀ tc ∈ resp.tool_calls, (decodeArguments tc.function.arguments).isSome) :
    (resp.tool_calls.filterMap (dispatchToolCall env.ecommerce)).length
        = resp.tool_calls.length ∧
    runLoop env (fuel + 1) hist inT outT ex =
      runLoop env fuel
        (hist ++
          ({ role := .assistant, content := resp.content,
             tool_calls := resp.tool_calls } ::
            resp.tool_calls.filterMap (dispatchToolCall env.ecommerce)))
        (inT + resp.prompt_eval_count) (outT + resp.eval_count) (ex + 1) :=
  ⟨length_filterMap_of_isSome _ resp.tool_calls
      (fun tc h => dispatchToolCall_isSome env.ecommerce tc (hdec tc h)),
    runLoop_succ_tools env fuel hist inT outT ex resp hreq hcalls hdec⟩

/-- Witness for C4 at a concrete reply with one tool call. -/
theorem tool_results_in_request_order_witness :
    (respAlwaysTool.tool_calls.filterMap (dispatchToolCall envAlwaysTool.ecommerce)).length
        = respAlwaysTool.tool_calls.length ∧
    runLoop envAlwaysTool (0 + 1) [systemMessage] 0 0 0 =
      runLoop envAlwaysTool 0
        ([systemMessage] ++
          ({ role := .assistant, content := respAlwaysTool.content,
             tool_calls := respAlwaysTool.tool_calls } ::
            respAlwaysTool.tool_calls.filterMap (dispatchToolCall envAlwaysTool.ecommerce)))
        (0 + respAlwaysTool.prompt_eval_count) (0 + respAlwaysTool.eval_count) (0 + 1) :=
  tool_results_in_request_order envAlwaysTool [systemMessage] 0 0 0 0 respAlwaysTool
    rfl (by simp [respAlwaysTool])
    (fun tc htc => by
      simp only [respAlwaysTool, List.mem_singleton] at htc
      subst htc
      rfl)

/-- C5: after `reset()` on any reachable state, the history is exactly
the one seed system message and the cumulative cost is zero. -/
theorem reset_restores_seed (st : AgentState) (h : Reachable st) :
    getHistory (reset st) = [systemMessage] ∧
    (getHistory (reset st)).length = 1 ∧
    getTotalCost (reset st) = 0 := by
  obtain ⟨rest, heq, _⟩ := reachable_system_head st h
  refine ⟨?_, ?_, rfl⟩
  · simp [getHistory, reset, heq]
  · simp [getHistory, reset, heq]

/-- Witness for C5 at a state reached by a real `chat` call. -/
theorem reset_restores_seed_witness :
    Reachable (chat envAlwaysTool (initialState true) "hello").1 ∧
    (getHistory (reset (chat envAlwaysTool (initialState true) "hello").1) = [systemMessage] ∧
      (getHistory (reset (chat envAlwaysTool (initialState true) "hello").1)).length = 1 ∧
      getTotalCost (reset (chat envAlwaysTool (initialState true) "hello").1) = 0) :=
  have hr : Reachable (chat envAlwaysTool (initialState true) "hello").1 :=
    Reachable.chat_step _ _ _ (Reachable.init true)
  ⟨hr, reset_restores_seed _ hr⟩

/-- C6: in every reachable state the head of the history is the seed
system message (unchanged from initialization), it has the system role,
and no other message in the history has the system role. -/
theorem system_message_invariant (st : AgentState) (h : Reachable st) :
    st.conversationHistory.head? = some systemMessage ∧
    systemMessage.role = Role.system ∧
    ∀ m ∈ st.conversationHistory.tail, m.role ≠ Role.system := by
  obtain ⟨rest, heq, hrest⟩ := reachable_system_head st h
  refine ⟨by rw [heq]; rfl, rfl, ?_⟩
  rw [heq]
  simpa using hrest

/-- Witness for C6 at a state reached by chat and reset steps. -/
theorem system_message_invariant_witness :
    Reachable (reset (chat envUnknownTool (initialState false) "hola").1) ∧
    ((reset (chat envUnknownTool (initialState false) "hola").1).conversationHistory.head?
        = some systemMessage ∧
      systemMessage.role = Role.system ∧
      ∀ m ∈ (reset (chat envUnknownTool (initialState false) "hola").1).conversationHistory.tail,
        m.role ≠ Role.system) :=
  have hr : Reachable (reset (chat envUnknownTool (initialState false) "hola").1) :=
    Reachable.reset_step _ (Reachable.chat_step _ _ _ (Reachable.init false))
  ⟨hr, system_message_invariant _ hr⟩

/-- C8: whenever the product-listing backend call fails (transport error
or non-OK response), `getProducts` does not raise and returns the fixed
fallback catalog of exactly 5 products. -/
theorem getProducts_degrades_to_mock (env : EcommerceEnv)
    (h : ∀ ps, env.productsFetch ≠ FetchOutcome.success ps) :
    getProducts env = mockProducts ∧ mockProducts.length = 5 := by
  refine ⟨?_, rfl⟩
  unfold getProducts
  cases hp : env.productsFetch with
  | success ps => exact absurd hp (h ps)
  | transportError => rfl
  | httpError s => rfl

/-- Witness for C8 at a transport-failing environment. -/
theorem getProducts_degrades_to_mock_witness :
    getProducts eenvMock = mockProducts ∧ mockProducts.length = 5 :=
  getProducts_degrades_to_mock eenvMock (fun ps hcon => by simp [eenvMock] at hcon)

/-- C10: when `chat` exits its loop by exhausting the 10-iteration limit
(every reply carried tool calls), the returned value is exactly the empty
string, and no plain final assistant message is appended — every
assistant message added during the invocation carries tool calls. -/
theorem iteration_limit_returns_empty (env : AgentEnv) (st : AgentState)
    (userMessage : String)
    (halways : ∀ h, ∃ r, env.request h = .ok r ∧ r.tool_calls ≠ [])
    (hdecode : ∀ h r, env.request h = .ok r →
      ∀ tc ∈ r.tool_calls, (decodeArguments tc.function.arguments).isSome) :
    (chat env st userMessage).2 = .ok "" ∧
    ∀ m ∈ (chat env st userMessage).1.conversationHistory.drop
        (st.conversationHistory.length + 1),
      m.role = Role.assistant → m.tool_calls ≠ [] := by
  obtain ⟨hout, _, suffix, hhist, hsuf⟩ :=
    runLoop_always_tools env halways hdecode maxIterations
      (st.conversationHistory ++ [{ role := .user, content := userMessage }]) 0 0 0
  have hchat1 : (chat env st userMessage).1.conversationHistory =
      (st.conversationHistory ++ [{ role := .user, content := userMessage }]) ++ suffix := by
    simp only [chat]
    rw [hout]
    exact hhist
  constructor
  · simp only [chat]
    rw [hout]
  · intro m hm hrole
    rw [hchat1] at hm
    have hlen : (st.conversationHistory ++
        [({ role := Role.user, content := userMessage } : Message)]).length =
        st.conversationHistory.length + 1 := by simp
    rw [← hlen, List.drop_left] at hm
    exact hsuf m hm hrole

/-- Witness for C10 at a concrete always-tool-calling backend. -/
theorem iteration_limit_returns_empty_witness :
    (chat envAlwaysTool (initialState false) "list everything").2 = .ok "" ∧
    ∀ m ∈ (chat envAlwaysTool (initialState false) "list everything").1.conversationHistory.drop
        ((initialState false).conversationHistory.length + 1),
      m.role = Role.assistant → m.tool_calls ≠ [] :=
  iteration_limit_returns_empty envAlwaysTool (initialState false) "list everything"
    (fun _ => ⟨respAlwaysTool, rfl, by simp [respAlwaysTool]⟩)
    (fun h r hr tc htc => by
      have hr' : r = respAlwaysTool := by
        have := hr.symm.trans (rfl : envAlwaysTool.request h = .ok respAlwaysTool)
        injection this
      subst hr'
      simp only [respAlwaysTool, List.mem_singleton] at htc
      subst htc
      rfl)

/-- C2 counterexample: with a backend requesting the unregistered tool
`bogus_tool`, the `chat` invocation does not raise — it returns the
follow-up text normally — and the Unknown-tool error has been converted
into a tool-role conversation message, refuting propagation to the
caller. -/
theorem unknownTool_not_propagated_counterexample :
    "bogus_tool" ∉ ecommerceToolNames ∧
    (chat envUnknownTool (initialState false) "hi").2 = .ok "done" ∧
    (chat envUnknownTool (initialState false) "hi").1.conversationHistory[3]? =
      some { role := .tool,
             content := jsonSerialize (toolFailureJson "bogus_tool"
               (.unknownTool "bogus_tool")) } :=
  ⟨by decide, rfl, rfl⟩

/-- C2 amended: an unknown tool name makes `executeTool` fail with the
Unknown-tool error, but the per-call try/catch in `chat`'s loop converts
that failure into a tool-role message holding the serialized
`(error, tool, status: failed)` record and continues with the remaining
calls; the error does not escape to the caller. -/
theorem unknownTool_converted_to_tool_message (eenv : EcommerceEnv)
    (name : String) (args : Json) (h : name ∉ ecommerceToolNames) :
    executeTool eenv name args = .error (.unknownTool name) ∧
    ∀ (env : AgentEnv) (hist : List Message) (tc : ToolCall) (rest : List ToolCall),
      env.ecommerce = eenv → tc.function.name = name →
      decodeArguments tc.function.arguments = some args →
      processToolCalls env hist (tc :: rest) =
        processToolCalls env
          (hist ++
            [{ role := .tool,
               content := jsonSerialize (toolFailureJson name (.unknownTool name)) }])
          rest := by
  simp only [ecommerceToolNames, List.mem_cons, List.mem_singleton, not_or] at h
  have hexec : executeTool eenv name args = .error (.unknownTool name) := by
    unfold executeTool
    split <;> simp_all
  refine ⟨hexec, ?_⟩
  intro env hist tc rest henv hname hdec
  simp only [processToolCalls, dispatchToolCall, hdec, Option.map_some']
  rw [henv, hname, hexec]

/-- Witness for the amended C2 at the concrete unregistered tool. -/
theorem unknownTool_converted_to_tool_message_witness :
    "bogus_tool" ∉ ecommerceToolNames ∧
    (executeTool eenvMock "bogus_tool" (Json.obj []) =
        .error (.unknownTool "bogus_tool") ∧
      processToolCalls envUnknownTool [] (bogusToolCall :: []) =
        processToolCalls envUnknownTool
          ([] ++
            [{ role := .tool,
               content := jsonSerialize (toolFailureJson "bogus_tool"
                 (.unknownTool "bogus_tool")) }]) []) :=
  have h : "bogus_tool" ∉ ecommerceToolNames := by decide
  have main := unknownTool_converted_to_tool_message eenvMock "bogus_tool" (Json.obj []) h
  ⟨h, main.1, main.2 envUnknownTool [] bogusToolCall [] rfl rfl rfl⟩

/-- C7: when the string-encoded `items` argument of `place_order` fails
to decode, execution degrades to an empty item list and the dispatch
still succeeds; whereas a decode failure of the whole (string-encoded)
arguments payload of any tool call is fatal to the dispatch — the loop
aborts with the parse error instead of producing a tool message. -/
theorem place_order_leniency_vs_payload_fatal (eenv : EcommerceEnv) (s : String)
    (hbad : jsonParse s = none) :
    executeTool eenv "place_order" (Json.obj [("items", Json.str s)]) =
      .ok (orderToJson (createOrder eenv [] none)) ∧
    ∀ (env : AgentEnv) (hist : List Message) (tcid tname : String)
      (rest : List ToolCall),
      processToolCalls env hist
          ({ id := tcid, function := { name := tname, arguments := .raw s } } :: rest) =
        (hist, some (.argumentsParse (.raw s))) := by
  constructor
  · simp [executeTool, Json.getField, Json.getStr, List.lookup, hbad, jsonToItems]
  · intro env hist tcid tname rest
    simp [processToolCalls, dispatchToolCall, decodeArguments, hbad]

/-- Witness for C7 at the undecodable string, asserting leniency for
`place_order` items and fatality of the payload decode for another
tool. -/
theorem place_order_leniency_vs_payload_fatal_witness :
    jsonParse "[" = none ∧
    (executeTool eenvMock "place_order" (Json.obj [("items", Json.str "[")]) =
        .ok (orderToJson (createOrder eenvMock [] none)) ∧
      processToolCalls envAlwaysTool [systemMessage]
          ({ id := "call-7",
             function := { name := "get_product_details", arguments := .raw "[" } } :: []) =
        ([systemMessage], some (.argumentsParse (.raw "[")))) :=
  have hbad : jsonParse "[" = none := rfl
  have main := place_order_leniency_vs_payload_fatal eenvMock "[" hbad
  ⟨hbad, main.1, main.2 envAlwaysTool [systemMessage] "call-7" "get_product_details" []⟩

/-- The P6 items against the mock catalog total 109.97. -/
theorem mock_total_demo : orderTotal mockProducts demoItems = 109.97 := by
  have h11 : ((1 : ℚ) == (1 : ℚ)) = true := by simp
  have h12 : ((1 : ℚ) == (2 : ℚ)) = false := beq_eq_false_iff_ne.mpr (by norm_num)
  have h22 : ((2 : ℚ) == (2 : ℚ)) = true := by simp
  norm_num [orderTotal, demoItems, mockProducts, List.find?, h11, h12, h22]

/-- C9 counterexample: the claim says the returned total always equals
the catalog sum, but when the order POST succeeds with a body carrying a
`total` field, the object-spread merge lets the server value override the
locally computed sum. -/
theorem createOrder_total_override_counterexample :
    orderTotal (getProducts eenvOverride) demoItems = 109.97 ∧
    (createOrder eenvOverride demoItems (some "x@y.com")).total = 5 ∧
    (5 : ℚ) ≠ 109.97 :=
  ⟨mock_total_demo, by decide, by norm_num⟩

/-- C9 amended: the locally computed order always totals the catalog sum
of `price × quantity` (unresolvable items contributing zero) with status
`pending`, and `createOrder` returns exactly that order whenever the POST
does not succeed with a decodable body — on a success the response fields
are spread over it and may override the total; the P6 example yields
109.97 against the fallback catalog. -/
theorem createOrder_local_pending (env : EcommerceEnv) (items : List CartItem)
    (customerEmail : Option String)
    (h : ∀ patch, env.ordersFetch (localOrder env items customerEmail) ≠
      FetchOutcome.success (some patch)) :
    createOrder env items customerEmail = localOrder env items customerEmail ∧
    (createOrder env items customerEmail).total = orderTotal (getProducts env) items ∧
    (createOrder env items customerEmail).status = some "pending" ∧
    (createOrder eenvMock demoItems (some "x@y.com")).total = 109.97 := by
  have hmain : createOrder env items customerEmail = localOrder env items customerEmail := by
    simp only [createOrder]
    cases hp : env.ordersFetch (localOrder env items customerEmail) with
    | success data =>
        cases data with
        | some patch => exact absurd hp (h patch)
        | none => rfl
    | httpError st => rfl
    | transportError => rfl
  exact ⟨hmain, by rw [hmain]; rfl, by rw [hmain]; rfl, mock_total_demo⟩

/-- Witness for the amended C9 at the failing-POST environment with the
P6 items. -/
theorem createOrder_local_pending_witness :
    createOrder eenvMock demoItems (some "x@y.com") =
        localOrder eenvMock demoItems (some "x@y.com") ∧
    (createOrder eenvMock demoItems (some "x@y.com")).total =
        orderTotal (getProducts eenvMock) demoItems ∧
    (createOrder eenvMock demoItems (some "x@y.com")).status = some "pending" ∧
    (createOrder eenvMock demoItems (some "x@y.com")).total = 109.97 :=
  have main := createOrder_local_pending eenvMock demoItems (some "x@y.com")
    (fun patch hcon => by simp [eenvMock] at hcon)
  ⟨main.1, main.2.1, main.2.2.1, mock_total_demo⟩

end OllamaSentryDemo
